import Mathlib

/-!
Verification of the boundary adapters in `lora_rx_stdin.py`: the pull-based
sample source `StdinToVectorSource` (stdin bytes → complex samples) and the
push-based message sink `MessageToStdout` (decoded messages → stdout lines).

Shallow embedding conventions:
* a byte is a `Nat`; a complex sample (`np.complex64`) is its 8 raw bytes,
  since the adapter only reinterprets memory and never computes with values;
* wall-clock time (`time.time()`) is a rational number;
* the bytes available on stdin are a `List Byte`; a `read(k)` call returns
  the first `min k available` bytes and consumes them (end-of-stream = the
  list is exhausted, so `read` returns the empty list);
* whether `select.select([sys.stdin], [], [], 0.0)` reports readiness, and
  whether the `read` raises `IOError`/`BlockingIOError`, are boolean inputs
  of one `work` invocation;
* an uncaught Python exception is an `Except.error`; `work` returns
  `Except PyError Int` because the GNU Radio scheduler accepts an `Int`
  (with -1 = WORK_DONE as terminal signal) even though this code only ever
  returns naturals;
* output channels (`sys.stdout` with its buffer and explicit `flush`,
  unbuffered `sys.stderr`) are character streams (`List Char`).
-/

abbrev Byte := Nat

/-- An `np.complex64` sample as carried by this program: its 8 raw bytes
(two little-endian 4-byte floats); the adapter never inspects the values. -/
abbrev Complex64 := List Byte

/-- A Python exception that escapes uncaught. `valueError` is what
`np.frombuffer` raises when the buffer size is not a multiple of the
element size. -/
inductive PyError where
  | valueError
deriving DecidableEq, Repr

namespace np

/-- Split a byte list into consecutive groups of 8 (the last group may be
shorter if the length is misaligned, but `frombuffer` rejects that case
before ever building groups). -/
def toChunks8 (l : List Byte) : List Complex64 :=
  if l = [] then []
  else l.take 8 :: toChunks8 (l.drop 8)
termination_by l.length
decreasing_by
  rename_i h
  have : l.length ≠ 0 := fun h0 => h (List.eq_nil_of_length_eq_zero h0)
  simp only [List.length_drop]
  omega

/-- `np.frombuffer(data, dtype=np.complex64)`: interprets the bytes as a
vector of 8-byte complex samples; raises `ValueError` when the byte count
is not a multiple of the element size (8).  It does NOT truncate. -/
def frombuffer (data : List Byte) : Except PyError (List Complex64) :=
  if data.length % 8 = 0 then Except.ok (toChunks8 data)
  else Except.error PyError.valueError

theorem toChunks8_nil : toChunks8 [] = [] := by
  rw [toChunks8]
  simp

theorem toChunks8_length (l : List Byte) :
    (toChunks8 l).length = (l.length + 7) / 8 := by
  generalize hn : l.length = n
  induction n using Nat.strong_induction_on generalizing l with
  | _ n ih =>
    by_cases h : l = []
    · subst h
      simp only [List.length_nil] at hn
      subst hn
      simp [toChunks8_nil]
    · rw [toChunks8, if_neg h]
      have hlen : l.length ≠ 0 := fun h0 => h (List.eq_nil_of_length_eq_zero h0)
      have hd : (l.drop 8).length < n := by
        simp only [List.length_drop]
        omega
      have := ih (l.drop 8).length (by simpa [hn] using hd) (l.drop 8) rfl
      simp only [List.length_cons, this, List.length_drop, hn]
      omega

end np

instance {ε α : Type} [DecidableEq ε] [DecidableEq α] :
    DecidableEq (Except ε α) := fun x y =>
  match x, y with
  | Except.ok a, Except.ok b =>
    if h : a = b then isTrue (congrArg Except.ok h)
    else isFalse (fun hc => h (Except.ok.inj hc))
  | Except.error a, Except.error b =>
    if h : a = b then isTrue (congrArg Except.error h)
    else isFalse (fun hc => h (Except.error.inj hc))
  | Except.ok _, Except.error _ => isFalse (fun hc => Except.noConfusion hc)
  | Except.error _, Except.ok _ => isFalse (fun hc => Except.noConfusion hc)

/-- GNU Radio scheduler convention: a `work` return value of -1
(`WORK_DONE`) signals end-of-stream to the scheduler, triggering terminal
shutdown of the flowgraph. Any nonnegative return is a produced item count. -/
def WORK_DONE : Int := -1

namespace StdinToVectorSource

/-- The mutable per-instance state set up by `StdinToVectorSource.__init__`:
`item_size`, `last_debug_time = 0`, `total_samples_received = 0`,
`start_time = time.time()`. -/
structure State where
  item_size : Nat
  last_debug_time : ℚ
  total_samples_received : Nat
  start_time : ℚ
deriving DecidableEq, Repr

/-- `StdinToVectorSource.__init__(item_size)` called at wall-clock time
`now`. -/
def init (item_size : Nat) (now : ℚ) : State :=
  { item_size := item_size
    last_debug_time := 0
    total_samples_received := 0
    start_time := now }

/-- Everything one `work` invocation leaves behind: the updated instance
state, the output buffer contents, the bytes remaining on stdin, the value
returned to the scheduler (or the uncaught exception), and the characters
written to the diagnostic channel (stderr) during the invocation. -/
structure WorkResult where
  state : State
  out : List Complex64
  stdinBytes : List Byte
  ret : Except PyError Int
  stderr : List Char
deriving DecidableEq, Repr

/-- The debug block at the top of `work`: when at least 5 seconds of
wall-clock time have passed since `last_debug_time`, the cumulative rate is
computed and `last_debug_time` is reset; the `print` of the rate to stderr
is commented out in the source, so nothing is emitted anywhere. -/
def debugTick (s : State) (current_time : ℚ) : State :=
  if 5 ≤ current_time - s.last_debug_time then
    let elapsed := current_time - s.start_time
    let _rate : ℚ :=
      if 0 < elapsed then (s.total_samples_received : ℚ) / elapsed else 0
    { s with last_debug_time := current_time }
  else s

/--
`StdinToVectorSource.work(self, input_items, output_items)`.

Inputs of one invocation beyond the instance state: `current_time` is what
`time.time()` returns; `out` is `output_items[0]` (its length is the
requested sample count); `ready` is whether the zero-timeout
`select.select` reports stdin readable; `ioErr` is whether
`sys.stdin.buffer.read` raises `IOError`/`BlockingIOError`; `stdin` is the
byte sequence available on standard input.

Faithful to the source: the 5-second debug block only computes the rate and
resets `last_debug_time` — the `print` to stderr is commented out, so the
invocation emits nothing to the diagnostic channel.  `np.frombuffer` raises
`ValueError` on a misaligned read (caught by nothing: only `IOError` and
`BlockingIOError` are handled), and at end-of-stream (`read` returns no
bytes) the invocation falls through to `return 0`.
-/
def work (s : State) (current_time : ℚ) (out : List Complex64)
    (ready : Bool) (ioErr : Bool) (stdin : List Byte) : WorkResult :=
  let bytes_to_read := out.length * 8
  let s1 := debugTick s current_time
  if ready then
    if ioErr then
      { state := s1, out := out, stdinBytes := stdin
        ret := Except.ok 0, stderr := [] }
    else
      let data := stdin.take bytes_to_read
      let rest := stdin.drop bytes_to_read
      if data = [] then
        { state := s1, out := out, stdinBytes := rest
          ret := Except.ok 0, stderr := [] }
      else
        match np.frombuffer data with
        | Except.error e =>
            { state := s1, out := out, stdinBytes := rest
              ret := Except.error e, stderr := [] }
        | Except.ok samples =>
            let n := min samples.length out.length
            { state := { s1 with
                total_samples_received := s1.total_samples_received + n }
              out := samples.take n ++ out.drop n
              stdinBytes := rest
              ret := Except.ok (n : Int), stderr := [] }
  else
    { state := s1, out := out, stdinBytes := stdin
      ret := Except.ok 0, stderr := [] }

/-- The sample count a scheduler return value accounts for: the returned
count on a normal return, 0 when the invocation raised. -/
def retCount : Except PyError Int → Nat
  | Except.ok n => n.toNat
  | Except.error _ => 0

/-- Parameters of one `work` invocation supplied by the environment
(everything except the instance state and the stdin bytes, which thread
from call to call). -/
structure Call where
  time : ℚ
  out : List Complex64
  ready : Bool
  ioErr : Bool
deriving Repr

/-- Run a sequence of `work` invocations, threading the instance state and
the remaining stdin bytes, collecting each invocation's scheduler return. -/
def runTrace (s : State) (stdin : List Byte) :
    List Call → State × List Byte × List (Except PyError Int)
  | [] => (s, stdin, [])
  | c :: cs =>
    let r := work s c.time c.out c.ready c.ioErr stdin
    let rec' := runTrace r.state r.stdinBytes cs
    (rec'.1, rec'.2.1, r.ret :: rec'.2.2)

end StdinToVectorSource

/-- A convenient all-zero sample for concrete instances. -/
def zeroSample : Complex64 := List.replicate 8 0

/-- The byte stream of the claim scenario: 8015 whole samples followed by
3 stray bytes (8015 × 8 + 3 = 64123 bytes). -/
def strayStream : List Byte := List.replicate 64123 0

/-- A buffered Python output stream (`sys.stdout`): characters already
flushed to the consumer, and characters still sitting in the buffer until
the next `flush()`. -/
structure OutChannel where
  flushed : List Char
  pending : List Char
deriving DecidableEq, Repr

/-- A `write` appends to the buffer. -/
def OutChannel.write (c : OutChannel) (s : String) : OutChannel :=
  { c with pending := c.pending ++ s.data }

/-- Python `print(s)`: writes `s` followed by a newline. -/
def OutChannel.printLine (c : OutChannel) (s : String) : OutChannel :=
  c.write (s ++ "\n")

/-- `flush()`: the buffered characters reach the consumer. -/
def OutChannel.flush (c : OutChannel) : OutChannel :=
  { flushed := c.flushed ++ c.pending, pending := [] }

namespace MessageToStdout

/-- A message arriving on the sink's `in` port, abstracted by what
`pmt.to_python(msg)` followed by rendering does with it: either it renders
to a text (`decoded`), or rendering raises an exception with text `err`
(`malformed`). -/
inductive Msg where
  | decoded (text : String)
  | malformed (err : String)
deriving DecidableEq, Repr

/-- State the sink's handler touches: `sys.stdout` (buffered, explicitly
flushed) and `sys.stderr` (unbuffered diagnostic channel). -/
structure SinkState where
  stdout : OutChannel
  stderr : List Char
deriving DecidableEq, Repr

/-- Both streams empty. -/
def emptySink : SinkState :=
  { stdout := { flushed := [], pending := [] }, stderr := [] }

/--
`MessageToStdout.handle_msg(self, msg)`.

On a successful decode: `print(data)` to stdout, then a
`DEBUG: Successfully decoded message:` echo to stderr.  On a decode
failure (`except Exception`): only a `DEBUG: Failed to decode message:`
notice to stderr.  In both cases `sys.stdout.flush()` runs before the
handler returns (it sits after the `try`/`except`).  The handler never
lets an exception escape.
-/
def handle_msg (st : SinkState) (m : Msg) : SinkState :=
  let st1 : SinkState :=
    match m with
    | Msg.decoded text =>
      { stdout := st.stdout.printLine text
        stderr := st.stderr ++
          ("DEBUG: Successfully decoded message: " ++ text ++ "\n").data }
    | Msg.malformed err =>
      { st with stderr := st.stderr ++
          ("DEBUG: Failed to decode message: " ++ err ++ "\n").data }
  { st1 with stdout := st1.stdout.flush }

/-- Messages are delivered to the handler one at a time, in arrival order
(the GNU Radio message port is a FIFO driving the registered handler). -/
def runSink (st : SinkState) (ms : List Msg) : SinkState :=
  ms.foldl handle_msg st

/-- The characters one rendered message contributes to stdout. -/
def lineOf (text : String) : List Char := (text ++ "\n").data

/-- The characters a sequence of rendered messages contributes to stdout:
one line each, in order. -/
def linesOf (texts : List String) : List Char :=
  (texts.map lineOf).flatten

end MessageToStdout

/-- Split a character stream at newlines: `lineSplit s` has one entry per
line, plus a final entry for the characters after the last newline (empty
when the stream ends in a newline). -/
def lineSplit : List Char → List (List Char)
  | [] => [[]]
  | c :: cs =>
    if c = '\n' then [] :: lineSplit cs
    else
      match lineSplit cs with
      | [] => [[c]]
      | t :: ts => (c :: t) :: ts

open StdinToVectorSource MessageToStdout

theorem debugTick_total_samples (s : State) (t : ℚ) :
    (debugTick s t).total_samples_received = s.total_samples_received := by
  unfold debugTick
  split <;> rfl

theorem work_stderr_silent (s : State) (t : ℚ) (out : List Complex64)
    (ready ioErr : Bool) (stdin : List Byte) :
    (work s t out ready ioErr stdin).stderr = [] := by
  cases ready with
  | false => simp [work]
  | true =>
    cases ioErr with
    | true => simp [work]
    | false =>
      by_cases hd : List.take (out.length * 8) stdin = []
      · simp [work, hd]
      · rcases hf : np.frombuffer (List.take (out.length * 8) stdin)
          with e | samples <;> simp [work, hd, hf]

theorem work_total_step (s : State) (t : ℚ) (out : List Complex64)
    (ready ioErr : Bool) (stdin : List Byte) :
    (work s t out ready ioErr stdin).state.total_samples_received =
      s.total_samples_received +
        retCount (work s t out ready ioErr stdin).ret := by
  cases ready with
  | false => simp [work, retCount, debugTick_total_samples]
  | true =>
    cases ioErr with
    | true => simp [work, retCount, debugTick_total_samples]
    | false =>
      by_cases hd : List.take (out.length * 8) stdin = []
      · simp [work, hd, retCount, debugTick_total_samples]
      · rcases hf : np.frombuffer (List.take (out.length * 8) stdin)
          with e | samples <;>
          simp [work, hd, hf, retCount, debugTick_total_samples]
        all_goals omega

theorem runTrace_total (s : State) (stdin : List Byte)
    (cs : List Call) :
    (runTrace s stdin cs).1.total_samples_received =
      s.total_samples_received +
        ((runTrace s stdin cs).2.2.map retCount).sum := by
  induction cs generalizing s stdin with
  | nil => simp [runTrace]
  | cons c rest ih =>
    simp only [runTrace, List.map_cons, List.sum_cons]
    rw [ih, work_total_step]
    omega

/-- C9: `total_samples_received` starts at 0 at construction; every `work`
invocation leaves it at its previous value plus the sample count that
invocation returned (an invocation that raises adds nothing); hence over
any sequence of invocations it is monotonically non-decreasing and equals
the sum of all counts returned so far. -/
theorem total_samples_received_invariant :
    (∀ item_size now, (init item_size now).total_samples_received = 0) ∧
    (∀ s t out ready ioErr stdin,
      (work s t out ready ioErr stdin).state.total_samples_received =
        s.total_samples_received +
          retCount (work s t out ready ioErr stdin).ret ∧
      s.total_samples_received ≤
        (work s t out ready ioErr stdin).state.total_samples_received) ∧
    (∀ s stdin cs,
      (runTrace s stdin cs).1.total_samples_received =
        s.total_samples_received +
          ((runTrace s stdin cs).2.2.map retCount).sum) :=
  ⟨fun _ _ => rfl,
   fun s t out ready ioErr stdin =>
     ⟨work_total_step s t out ready ioErr stdin,
      by rw [work_total_step]; exact Nat.le_add_right _ _⟩,
   runTrace_total⟩

/-- C8: when the zero-timeout readiness check reports no input ready
(whether or not the read would have failed), or when the read raises
`IOError`/`BlockingIOError`, the `work` invocation returns 0 produced
samples and raises nothing. -/
theorem work_transient_returns_zero (s : State) (t : ℚ)
    (out : List Complex64) (stdin : List Byte) :
    (work s t out false false stdin).ret = Except.ok 0 ∧
    (work s t out false true stdin).ret = Except.ok 0 ∧
    (work s t out true true stdin).ret = Except.ok 0 := by
  refine ⟨?_, ?_, ?_⟩ <;> simp [work]

/-- C10: when the readiness check reports the input not ready, the `work`
invocation consumes no bytes from the input stream and leaves the output
buffer exactly as it was, returning 0. -/
theorem work_not_ready_frame (s : State) (t : ℚ) (out : List Complex64)
    (ioErr : Bool) (stdin : List Byte) :
    (work s t out false ioErr stdin).out = out ∧
    (work s t out false ioErr stdin).stdinBytes = stdin ∧
    (work s t out false ioErr stdin).ret = Except.ok 0 := by
  refine ⟨?_, ?_, ?_⟩ <;> simp [work]

theorem debugTick_last_of_elapsed (s : State) (t : ℚ)
    (h : 5 ≤ t - s.last_debug_time) :
    (debugTick s t).last_debug_time = t := by
  unfold debugTick
  rw [if_pos h]

theorem work_last_debug_time (s : State) (t : ℚ) (out : List Complex64)
    (ready ioErr : Bool) (stdin : List Byte) :
    (work s t out ready ioErr stdin).state.last_debug_time =
      (debugTick s t).last_debug_time := by
  cases ready with
  | false => simp [work]
  | true =>
    cases ioErr with
    | true => simp [work]
    | false =>
      by_cases hd : List.take (out.length * 8) stdin = []
      · simp [work, hd]
      · rcases hf : np.frombuffer (List.take (out.length * 8) stdin)
          with e | samples <;> simp [work, hd, hf]

/-- C4 (counterexample): a concrete `work` invocation at wall-clock time
10, with the last diagnostic check at time 0 (so well over 5 seconds have
elapsed), emits nothing at all to the diagnostic channel — refuting the
claim that the cumulative rate is emitted every 5 seconds — even though
the diagnostic timer is reset to the current time. -/
theorem work_debug_silent_counterexample :
    5 ≤ (10 : ℚ) - (init 8 0).last_debug_time ∧
    (work (init 8 0) 10 (List.replicate 4 zeroSample) false false
      []).stderr = [] ∧
    (work (init 8 0) 10 (List.replicate 4 zeroSample) false false
      []).state.last_debug_time = 10 := by
  refine ⟨by norm_num [init], ?_, ?_⟩
  · simp [work]
  · norm_num [work, init, debugTick]

/-- C4 (amended): whenever at least 5 seconds of wall-clock time have
elapsed since the last diagnostic check, the `work` invocation computes
the cumulative rate and resets the diagnostic timer to the current time,
but emits nothing to the diagnostic channel: the emission of the rate is
disabled (commented out) in the code, so no invocation ever writes a
diagnostic. -/
theorem work_debug_interval_timer_only (s : State) (t : ℚ)
    (out : List Complex64) (ready ioErr : Bool) (stdin : List Byte)
    (h : 5 ≤ t - s.last_debug_time) :
    (work s t out ready ioErr stdin).stderr = [] ∧
    (work s t out ready ioErr stdin).state.last_debug_time = t := by
  constructor
  · exact work_stderr_silent s t out ready ioErr stdin
  · rw [work_last_debug_time]
    exact debugTick_last_of_elapsed s t h

/-- Witness for C4 (amended) at a concrete invocation. -/
theorem work_debug_interval_timer_only_witness :
    5 ≤ (7 : ℚ) - (init 8 0).last_debug_time ∧
    ((work (init 8 0) 7 [] true false []).stderr = [] ∧
     (work (init 8 0) 7 [] true false []).state.last_debug_time = 7) :=
  ⟨by norm_num [init],
   work_debug_interval_timer_only (init 8 0) 7 [] true false []
     (by norm_num [init])⟩

/-- C1 (counterexample): at end-of-stream — `select` reports the stream
readable and the read returns no bytes — a concrete `work` invocation
returns 0, not the scheduler's terminal `WORK_DONE` signal, contradicting
the claim that end-of-stream is surfaced as a terminal signal. -/
theorem work_eof_counterexample :
    (work (init 8 0) 0 (List.replicate 4 zeroSample) true false []).ret =
      Except.ok 0 ∧
    (work (init 8 0) 0 (List.replicate 4 zeroSample) true false []).ret ≠
      Except.ok WORK_DONE := by
  constructor
  · simp [work, init, debugTick]
  · simp [work, init, debugTick, WORK_DONE]

/-- C1 (amended): on end-of-stream the `work` invocation returns 0 —
never the terminal `WORK_DONE` signal — and changes neither the input
stream nor the cumulative sample counter, so every later invocation at
end-of-stream again returns 0: the source never signals terminal shutdown
to the scheduler. -/
theorem work_eof_returns_zero_forever (s : State) (t : ℚ)
    (out : List Complex64) :
    (work s t out true false []).ret = Except.ok 0 ∧
    (work s t out true false []).ret ≠ Except.ok WORK_DONE ∧
    (work s t out true false []).stdinBytes = [] ∧
    (work s t out true false []).state.total_samples_received =
      s.total_samples_received := by
  refine ⟨?_, ?_, ?_, ?_⟩ <;>
    simp [work, WORK_DONE, debugTick_total_samples]

/-- C2 (counterexample): on the claim's own scenario — a read yielding the
bytes of 8015 samples plus 3 stray bytes (64123 bytes) — the `work`
invocation raises an uncaught `ValueError` (from `np.frombuffer`) instead
of truncating to 8015 samples: the claim that such a read is truncated
and never raises is false. -/
theorem work_misaligned_counterexample :
    (work (init 8 0) 0 (List.replicate 9000 zeroSample) true false
      strayStream).ret = Except.error PyError.valueError ∧
    (work (init 8 0) 0 (List.replicate 9000 zeroSample) true false
      strayStream).ret ≠ Except.ok (8015 : Int) := by
  have hlen : strayStream.length = 64123 := by
    rw [strayStream, List.length_replicate]
  have htake : strayStream.take 72000 = strayStream := by
    apply List.take_of_length_le
    rw [hlen]
    norm_num
  have hfb : np.frombuffer strayStream = Except.error PyError.valueError := by
    unfold np.frombuffer
    rw [if_neg]
    rw [hlen]
    omega
  have hne : strayStream ≠ [] := by
    intro h
    rw [h] at hlen
    simp at hlen
  constructor <;> simp [work, htake, hfb, hne, -List.reduceReplicate]

/-- C2 (amended): the code never truncates a misaligned read.  Whenever
the read yields a nonempty byte sequence whose length is not a multiple
of the sample width 8, the `work` invocation raises `ValueError`
(uncaught — only `IOError`/`BlockingIOError` are handled), emitting no
samples into the output buffer and leaving the cumulative sample counter
unchanged.  (Only an aligned read emits samples, and then only whole
ones — see the C3 theorem.) -/
theorem work_misaligned_read_raises (s : State) (t : ℚ)
    (out : List Complex64) (stdin : List Byte)
    (h1 : stdin ≠ []) (h2 : stdin.length ≤ out.length * 8)
    (h3 : stdin.length % 8 ≠ 0) :
    (work s t out true false stdin).ret =
      Except.error PyError.valueError ∧
    (work s t out true false stdin).out = out ∧
    (work s t out true false stdin).state.total_samples_received =
      s.total_samples_received := by
  have htake : stdin.take (out.length * 8) = stdin :=
    List.take_of_length_le h2
  have hfb : np.frombuffer stdin = Except.error PyError.valueError := by
    unfold np.frombuffer
    rw [if_neg h3]
  refine ⟨?_, ?_, ?_⟩ <;>
    simp [work, htake, hfb, h1, debugTick_total_samples]

/-- Witness for C2 (amended): an 11-byte read against a 2-sample request. -/
theorem work_misaligned_read_raises_witness :
    (List.replicate 11 (0 : Byte)) ≠ [] ∧
    (List.replicate 11 (0 : Byte)).length ≤
      (List.replicate 2 zeroSample : List Complex64).length * 8 ∧
    (List.replicate 11 (0 : Byte)).length % 8 ≠ 0 ∧
    (work (init 8 0) 0 (List.replicate 2 zeroSample) true false
      (List.replicate 11 0)).ret = Except.error PyError.valueError :=
  ⟨by decide, by decide, by decide,
   (work_misaligned_read_raises (init 8 0) 0 (List.replicate 2 zeroSample)
     (List.replicate 11 0) (by decide) (by decide) (by decide)).1⟩

/-- C3: for a requested count `N` (the output buffer length) and `B`
available bytes with `B` a multiple of 8, one `work` invocation consumes
`min (N*8) B = (min (N*8) B / 8) * 8` bytes from the input stream,
returns exactly `min (N*8) B / 8` samples, and writes exactly those
samples — whole 8-byte samples, in stream order — into the front of the
output buffer, leaving the rest of the buffer as it was. -/
theorem work_aligned_consumes_and_emits (s : State) (t : ℚ)
    (out : List Complex64) (stdin : List Byte) (N B : Nat)
    (hN : out.length = N) (hB : stdin.length = B) (hal : B % 8 = 0) :
    (work s t out true false stdin).ret =
      Except.ok (((min (N * 8) B) / 8 : Nat) : Int) ∧
    B - (work s t out true false stdin).stdinBytes.length =
      ((min (N * 8) B) / 8) * 8 ∧
    (work s t out true false stdin).out =
      (np.toChunks8 (stdin.take (N * 8))).take ((min (N * 8) B) / 8) ++
        out.drop ((min (N * 8) B) / 8) := by
  subst hN
  subst hB
  have hlen_take : (stdin.take (out.length * 8)).length =
      min (out.length * 8) stdin.length := List.length_take _ _
  by_cases hd : stdin.take (out.length * 8) = []
  · have hmin : min (out.length * 8) stdin.length = 0 := by
      rw [← hlen_take, hd]
      rfl
    refine ⟨?_, ?_, ?_⟩ <;>
      simp [work, hd, hmin, List.length_drop]
    all_goals omega
  · have hmod : (stdin.take (out.length * 8)).length % 8 = 0 := by
      rw [hlen_take]
      omega
    have hfb : np.frombuffer (stdin.take (out.length * 8)) =
        Except.ok (np.toChunks8 (stdin.take (out.length * 8))) := by
      unfold np.frombuffer
      rw [if_pos hmod]
    have hn : (np.toChunks8 (stdin.take (out.length * 8))).length ⊓
        out.length = min (out.length * 8) stdin.length / 8 := by
      rw [np.toChunks8_length, hlen_take]
      omega
    refine ⟨?_, ?_, ?_⟩ <;>
      simp [work, hd, hfb, hn, List.length_drop]
    all_goals omega

/-- Witness for C3 at the spec scenario: 8020 samples (64160 bytes)
available, 8020 requested, one invocation returns exactly 8020 samples. -/
theorem work_aligned_consumes_and_emits_witness :
    (List.replicate 8020 zeroSample : List Complex64).length = 8020 ∧
    (List.replicate 64160 (0 : Byte)).length = 64160 ∧
    64160 % 8 = 0 ∧
    (work (init 8 0) 0 (List.replicate 8020 zeroSample) true false
      (List.replicate 64160 0)).ret =
      Except.ok (((min (8020 * 8) 64160) / 8 : Nat) : Int) :=
  ⟨by rw [List.length_replicate], by rw [List.length_replicate],
   by norm_num,
   (work_aligned_consumes_and_emits (init 8 0) 0
     (List.replicate 8020 zeroSample) (List.replicate 64160 0) 8020 64160
     (by rw [List.length_replicate]) (by rw [List.length_replicate])
     (by norm_num)).1⟩


theorem handle_msg_decoded_eq (st : SinkState) (text : String) :
    handle_msg st (Msg.decoded text) =
      { stdout := { flushed := st.stdout.flushed ++ st.stdout.pending ++
                      lineOf text
                    pending := [] }
        stderr := st.stderr ++
          ("DEBUG: Successfully decoded message: " ++ text ++ "\n").data } := by
  simp [handle_msg, OutChannel.printLine, OutChannel.write, OutChannel.flush,
    lineOf]

theorem runSink_decoded (ms : List String) (st : SinkState)
    (hp : st.stdout.pending = []) :
    (runSink st (ms.map Msg.decoded)).stdout.flushed =
      st.stdout.flushed ++ linesOf ms ∧
    (runSink st (ms.map Msg.decoded)).stdout.pending = [] := by
  induction ms generalizing st with
  | nil => simp [runSink, linesOf, hp]
  | cons m rest ih =>
    have hstep := handle_msg_decoded_eq st m
    have hrec := ih (handle_msg st (Msg.decoded m)) (by rw [hstep])
    simp only [List.map_cons, runSink, List.foldl_cons] at hrec ⊢
    rw [hrec.1, hrec.2.symm]
    refine ⟨?_, rfl⟩
    rw [hstep]
    simp [linesOf, hp, List.append_assoc]

theorem lineSplit_append_newline (l rest : List Char) (h : '\n' ∉ l) :
    lineSplit (l ++ '\n' :: rest) = l :: lineSplit rest := by
  induction l with
  | nil => simp [lineSplit]
  | cons c cs ih =>
    have hc : ¬(c = '\n') := by
      intro hc
      exact h (by rw [hc]; exact List.mem_cons_self _ _)
    have hcs : '\n' ∉ cs := fun hm => h (List.mem_cons_of_mem _ hm)
    simp only [List.cons_append, lineSplit, if_neg hc, List.append_eq,
      ih hcs]

theorem lineSplit_linesOf (ms : List String)
    (h : ∀ m ∈ ms, '\n' ∉ m.data) :
    lineSplit (linesOf ms) = ms.map String.data ++ [[]] := by
  induction ms with
  | nil => simp [linesOf, lineSplit]
  | cons m rest ih =>
    have hnl : ("\n" : String).data = ['\n'] := rfl
    have hm : linesOf (m :: rest) = m.data ++ '\n' :: linesOf rest := by
      simp [linesOf, lineOf, String.data_append, hnl]
    rw [hm, lineSplit_append_newline _ _ (h m (List.mem_cons_self _ _)),
      ih (fun x hx => h x (List.mem_cons_of_mem _ hx))]
    simp

/-- C5: messages delivered to the sink appear on the primary output one
line per message, in exact arrival order, with no merging or splitting:
the flushed stdout stream is precisely the concatenation of the rendered
message lines, splitting the stream at newlines recovers exactly the
messages in order, and the scenario "A", "B", "C" produces exactly the
characters of "A\nB\nC\n". -/
theorem sink_output_order_preserved :
    (∀ ms : List String,
      (runSink emptySink (ms.map Msg.decoded)).stdout.flushed =
        linesOf ms ∧
      (runSink emptySink (ms.map Msg.decoded)).stdout.pending = []) ∧
    (∀ ms : List String, (∀ m ∈ ms, '\n' ∉ m.data) →
      lineSplit (linesOf ms) = ms.map String.data ++ [[]]) ∧
    (runSink emptySink
      [Msg.decoded "A", Msg.decoded "B", Msg.decoded "C"]).stdout.flushed =
      ("A\nB\nC\n").data := by
  refine ⟨?_, lineSplit_linesOf, ?_⟩
  · intro ms
    have := runSink_decoded ms emptySink rfl
    simpa [emptySink] using this
  · decide

/-- Witness for C5 on the spec scenario: "A", "B", "C" contain no newline,
so the flushed output splits into exactly those three lines in order. -/
theorem sink_output_order_preserved_witness :
    (∀ m ∈ (["A", "B", "C"] : List String), '\n' ∉ m.data) ∧
    lineSplit (linesOf ["A", "B", "C"]) =
      (["A", "B", "C"] : List String).map String.data ++ [[]] :=
  ⟨by decide,
   sink_output_order_preserved.2.1 ["A", "B", "C"] (by decide)⟩

/-- C6: for every successfully decoded message, the handler writes the
rendered text as one line (the text followed by a newline) to the primary
output stream, flushes stdout before returning (the buffer is left empty,
the line fully in the flushed stream), and independently mirrors an echo
of the message to the diagnostic channel. -/
theorem handle_msg_decoded_writes_flushes_mirrors (st : SinkState)
    (text : String) :
    (handle_msg st (Msg.decoded text)).stdout.flushed =
      st.stdout.flushed ++ st.stdout.pending ++ lineOf text ∧
    (handle_msg st (Msg.decoded text)).stdout.pending = [] ∧
    (handle_msg st (Msg.decoded text)).stderr =
      st.stderr ++
        ("DEBUG: Successfully decoded message: " ++ text ++ "\n").data := by
  rw [handle_msg_decoded_eq]
  exact ⟨rfl, rfl, rfl⟩

/-- C7: a message whose payload fails to render is logged as a failure
notice on the diagnostic channel, contributes no line to the primary
output (only the previously buffered characters are flushed), the handler
returns normally (it is a total function — the exception is caught), and
subsequent messages are processed exactly as if the failed one had not
occurred. -/
theorem handle_msg_malformed_logged_and_isolated (err : String)
    (ms : List String) (st : SinkState) :
    (handle_msg st (Msg.malformed err)).stderr =
      st.stderr ++ ("DEBUG: Failed to decode message: " ++ err ++ "\n").data ∧
    (handle_msg st (Msg.malformed err)).stdout.flushed =
      st.stdout.flushed ++ st.stdout.pending ∧
    (handle_msg st (Msg.malformed err)).stdout.pending = [] ∧
    (runSink emptySink
      (Msg.malformed err :: ms.map Msg.decoded)).stdout.flushed =
      linesOf ms := by
  have hbad : handle_msg emptySink (Msg.malformed err) =
      { stdout := { flushed := [], pending := [] }
        stderr := ("DEBUG: Failed to decode message: " ++ err ++ "\n").data } := by
    simp [handle_msg, OutChannel.flush, emptySink]
  refine ⟨?_, ?_, ?_, ?_⟩
  · simp [handle_msg, OutChannel.flush]
  · simp [handle_msg, OutChannel.flush]
  · simp [handle_msg, OutChannel.flush]
  · have hrec := runSink_decoded ms (handle_msg emptySink (Msg.malformed err))
      (by rw [hbad])
    simp only [runSink, List.foldl_cons] at hrec ⊢
    rw [hrec.1, hbad]
    simp
